import Mathlib

/-!
Shallow embedding of `gpr20_axis/axis_driver.py` (AxisDriver class) from the
gdh-uniandes/gpr20_axis repository.

Conventions of the embedding:
* Python floats are modelled as rationals (`ℚ`); all arithmetic in the source
  on these values is exact field arithmetic.
* Python `int(x)` (truncation toward zero) is `pyInt`.
* The stepper interface's `step(direction, pause)` calls are recorded as a
  trace `List (Bool × ℚ)` in the order they are issued; the endstop sensor is
  an oracle `ℕ → Bool` giving the result of the k-th `sample()` call.
* The driver's mutable attributes form the `AxisDriver` structure; methods
  are state transformers.  Loops that issue pulses additionally record the
  driver state observed after each pulse (`mids`), so that properties about
  the state "during" an operation are expressible.
* `homing`'s unbounded `while` loop is modelled with explicit fuel; outcome
  `diverge` means the fuel ran out with the loop still running.
* Raised `AxisException`s are modelled by the `AxisError` type, one
  constructor per distinct raise site message.
-/

namespace GPR20

/-- Python `int(q)` for a rational `q`: truncation toward zero. -/
def pyInt (q : ℚ) : ℤ := Int.tdiv q.num (q.den : ℤ)

/-- The mutable/configured attributes of the Python `AxisDriver` object. -/
structure AxisDriver where
  dir_pin : ℤ
  step_pin : ℤ
  sensor_pin : Option ℤ
  step_size : ℚ
  min_step : ℚ
  max_step : ℚ
  delta_step : ℚ
  step_intervals : ℤ
  min_coord : ℚ
  max_coord : ℚ
  axis_type : String
  current_coord : ℚ
  homing_done : Bool
  busy : Bool
  deriving DecidableEq

/-- The distinct `AxisException` raise sites of `axis_driver.py`. -/
inductive AxisError where
  | pinStepDir
  | pinDirSensor
  | pinStepSensor
  | maxStepsReached
  | busyAxis
  | notHomed
  | aboveMax
  | belowMin
  deriving DecidableEq

/-- Constructor `AxisDriver.__init__`: pin-collision checks, computation of
`step_intervals = int((max_step - min_step) / delta_step) + 1`, and the
initial attribute values (`current_coord = -1.0`, `homing_done = False`,
`busy = False`).  The sensor pin is only read (and checked) for a linear
axis. -/
def initAxis (dir_pin step_pin sensor_pin : ℤ)
    (step_size min_step max_step delta_step : ℚ)
    (min_coord max_coord : ℚ) (axis_type : String) :
    Except AxisError AxisDriver :=
  if step_pin = dir_pin then .error .pinStepDir
  else
    let step_intervals : ℤ := pyInt ((max_step - min_step) / delta_step) + 1
    if axis_type = "LIN" then
      if dir_pin = sensor_pin then .error .pinDirSensor
      else if step_pin = sensor_pin then .error .pinStepSensor
      else .ok
        { dir_pin := dir_pin, step_pin := step_pin,
          sensor_pin := some sensor_pin,
          step_size := step_size, min_step := min_step, max_step := max_step,
          delta_step := delta_step, step_intervals := step_intervals,
          min_coord := min_coord, max_coord := max_coord,
          axis_type := axis_type,
          current_coord := -1, homing_done := false, busy := false }
    else
      .ok
        { dir_pin := dir_pin, step_pin := step_pin,
          sensor_pin := none,
          step_size := step_size, min_step := min_step, max_step := max_step,
          delta_step := delta_step, step_intervals := step_intervals,
          min_coord := min_coord, max_coord := max_coord,
          axis_type := axis_type,
          current_coord := -1, homing_done := false, busy := false }

/-- Method `AxisDriver._calculate_direction`: `True` (positive) iff the distance
delta is negative. -/
def calculate_direction (distance_delta : ℚ) : Bool :=
  decide (distance_delta < 0)

/-- Method `AxisDriver._calculate_steps`: `int(abs(distance_delta) / step_size)`. -/
def calculate_steps (d : AxisDriver) (distance_delta : ℚ) : ℤ :=
  pyInt (|distance_delta| / d.step_size)

/-- Method `AxisDriver._calculate_delta_distance`. -/
def calculate_delta_distance (d : AxisDriver) (target_coord : ℚ) : ℚ :=
  d.current_coord - target_coord

/-- Method `AxisDriver._create_steps_list`: the trapezoidal step-plan generator. -/
def create_steps_list (d : AxisDriver) (n_steps : ℤ) : List ℚ :=
  if n_steps < 2 * d.step_intervals ∧ 0 < n_steps then
    List.replicate n_steps.toNat d.max_step
  else if n_steps = 2 * d.step_intervals then
    ((List.range d.step_intervals.toNat).map fun i : ℕ =>
      d.max_step - (i : ℚ) * d.delta_step)
    ++ ((List.range d.step_intervals.toNat).map fun i : ℕ =>
      d.min_step + (i : ℚ) * d.delta_step)
  else if 2 * d.step_intervals < n_steps then
    ((List.range d.step_intervals.toNat).map fun i : ℕ =>
      d.max_step - (i : ℚ) * d.delta_step)
    ++ List.replicate (n_steps - 2 * d.step_intervals).toNat d.min_step
    ++ ((List.range d.step_intervals.toNat).map fun i : ℕ =>
      d.min_step + (i : ℚ) * d.delta_step)
  else []

/-- Result of executing the pulse loop of `move_to_coordinate`: the driver
state after the loop, the actuator trace, and the state observed after each
pulse. -/
structure ExecOut where
  final : AxisDriver
  trace : List (Bool × ℚ)
  mids : List AxisDriver
  deriving DecidableEq

/-- The pulse loop of `move_to_coordinate`: for each pause value, call
`stepper_interface.step(move_direction, pause_val)` and then update
`current_coord` by `±step_size`. -/
def exec_steps (d : AxisDriver) (move_direction : Bool) :
    List ℚ → ExecOut
  | [] => ⟨d, [], []⟩
  | pause_val :: rest =>
    let d2 : AxisDriver :=
      if move_direction then
        { d with current_coord := d.current_coord + d.step_size }
      else
        { d with current_coord := d.current_coord - d.step_size }
    let o := exec_steps d2 move_direction rest
    ⟨o.final, (move_direction, pause_val) :: o.trace, d2 :: o.mids⟩

/-- Result of a `move_to_coordinate` call: final driver state, the raised
exception (if any), the actuator trace, and per-pulse observed states. -/
structure MoveResult where
  state : AxisDriver
  err : Option AxisError
  trace : List (Bool × ℚ)
  mids : List AxisDriver
  deriving DecidableEq

/-- Method `AxisDriver.move_to_coordinate`, translated statement by statement:
availability check, `busy := True`, homing check (clears busy on failure),
target bound checks (clear busy on failure), delta/direction/steps/plan
computation, the pulse loop, and `busy := False` on completion. -/
def move_to_coordinate (d : AxisDriver) (target_coord : ℚ) : MoveResult :=
  if d.busy then ⟨d, some .busyAxis, [], []⟩
  else
    let d1 : AxisDriver := { d with busy := true }
    if d1.homing_done = false then
      ⟨{ d1 with busy := false }, some .notHomed, [], []⟩
    else if d1.max_coord < target_coord then
      ⟨{ d1 with busy := false }, some .aboveMax, [], []⟩
    else if target_coord < d1.min_coord then
      ⟨{ d1 with busy := false }, some .belowMin, [], []⟩
    else
      let distance_delta := calculate_delta_distance d1 target_coord
      let move_direction := calculate_direction distance_delta
      let n_steps := calculate_steps d1 distance_delta
      let steps_list := create_steps_list d1 n_steps
      let o := exec_steps d1 move_direction steps_list
      ⟨{ o.final with busy := false }, none, o.trace, o.mids⟩

/-- Outcome of the homing loop: sensor reached (`ok`), budget exception
raised (`fault`), or fuel exhausted with the loop still running
(`diverge`). -/
inductive HomingOutcome where
  | ok
  | fault
  | diverge
  deriving DecidableEq

/-- The `while not reached_sensor` loop of linear homing.  Arguments after
the sensor oracle and the (float) `max_steps` budget: remaining fuel and the
current value of `executed_steps`.  Each iteration issues one pulse
`step(False, max_step)`, increments the counter, samples the sensor, and
raises when the counter equals the budget.  The returned triple is
(outcome, actuator trace, driver state observed at each pulse); the loop
body never assigns any driver attribute, so the observed state is `d`
itself at every pulse. -/
def homing_loop (d : AxisDriver) (sensor : ℕ → Bool) (max_steps : ℚ) :
    ℕ → ℕ → HomingOutcome × List (Bool × ℚ) × List AxisDriver
  | 0, _ => (.diverge, [], [])
  | fuel + 1, executed =>
    let reached := sensor executed
    if ((executed + 1 : ℕ) : ℚ) = max_steps then
      (.fault, [(false, d.max_step)], [d])
    else if reached then
      (.ok, [(false, d.max_step)], [d])
    else
      let r := homing_loop d sensor max_steps fuel (executed + 1)
      (r.1, (false, d.max_step) :: r.2.1, d :: r.2.2)

/-- Result of a `homing` call. -/
structure HomingResult where
  state : AxisDriver
  outcome : HomingOutcome
  trace : List (Bool × ℚ)
  mids : List AxisDriver
  deriving DecidableEq

/-- Method `AxisDriver.homing`: rotational axes assign `current_coord := min_coord`
and `homing_done := True` with no actuator interaction; every other axis
type runs the linear homing loop with budget
`max_steps = (max_coord - min_coord) / step_size` (no flooring in the
source), and on sensor trigger assigns `current_coord := min_coord` and
`homing_done := True`. -/
def homing (d : AxisDriver) (sensor : ℕ → Bool) (fuel : ℕ) : HomingResult :=
  if d.axis_type = "ROT" then
    ⟨{ d with current_coord := d.min_coord, homing_done := true },
      .ok, [], []⟩
  else
    let max_steps := (d.max_coord - d.min_coord) / d.step_size
    let r := homing_loop d sensor max_steps fuel 0
    match r.1 with
    | .ok =>
      ⟨{ d with current_coord := d.min_coord, homing_done := true },
        .ok, r.2.1, r.2.2⟩
    | .fault => ⟨d, .fault, r.2.1, r.2.2⟩
    | .diverge => ⟨d, .diverge, r.2.1, r.2.2⟩

/-- Spec-side description of the acceleration leg: `I` pauses
`dmax - i * delta` for `i = 0 .. I-1`. -/
def accelLegSpec (I : ℕ) (dmax delta : ℚ) : List ℚ :=
  (List.range I).map fun i : ℕ => dmax - (i : ℚ) * delta

/-- Spec-side description of the deceleration leg: `I` pauses
`dmin + i * delta` for `i = 0 .. I-1`. -/
def decelLegSpec (I : ℕ) (dmin delta : ℚ) : List ℚ :=
  (List.range I).map fun i : ℕ => dmin + (i : ℚ) * delta

/-! ### Basic lemmas about the embedding -/

/-- Python truncation agrees with the floor on non-negative rationals. -/
theorem pyInt_eq_floor (q : ℚ) (h : 0 ≤ q) : pyInt q = ⌊q⌋ := by
  unfold pyInt
  rw [Rat.floor_def]
  exact Int.tdiv_eq_ediv (Rat.num_nonneg.mpr h) (Int.ofNat_nonneg q.den)

/-- The step plan has exactly `n_steps` entries (for a configuration with a
non-negative number of speed intervals; negative requested step counts give
the empty plan). -/
theorem create_steps_list_length (d : AxisDriver)
    (hI : 0 ≤ d.step_intervals) (n : ℤ) :
    (create_steps_list d n).length = n.toNat := by
  unfold create_steps_list
  split_ifs with h1 h2 h3
  · simp only [List.length_replicate]
  · simp only [List.length_append, List.length_map, List.length_range]
    omega
  · simp only [List.length_append, List.length_map, List.length_range,
      List.length_replicate]
    omega
  · simp only [List.length_nil]
    omega

/-- The pulse loop calls the actuator once per planned pause, with the fixed
resolved direction. -/
theorem exec_steps_trace (d : AxisDriver) (dir : Bool) (ps : List ℚ) :
    (exec_steps d dir ps).trace = ps.map fun p => (dir, p) := by
  induction ps generalizing d with
  | nil => rfl
  | cons p ps ih => simp only [exec_steps, List.map_cons]; rw [ih]

/-- Final state of the pulse loop: only `current_coord` changes, by
`±step_size` per pulse. -/
theorem exec_steps_final (d : AxisDriver) (dir : Bool) (ps : List ℚ) :
    (exec_steps d dir ps).final =
      { d with current_coord := d.current_coord +
          (if dir then (ps.length : ℚ) * d.step_size
           else -((ps.length : ℚ) * d.step_size)) } := by
  induction ps generalizing d with
  | nil => cases dir <;> simp [exec_steps]
  | cons p ps ih =>
    cases dir <;>
      simp only [exec_steps, ih, List.length_cons, Nat.cast_add,
        Nat.cast_one, if_true, if_false, Bool.false_eq_true] <;>
      · congr 1
        ring

/-- Coordinates observed after each pulse of the pulse loop: the `k`-th
observed state (0-indexed) has `current_coord` advanced by `(k+1)` steps in
the travel direction. -/
theorem exec_steps_mids_coords (d : AxisDriver) (dir : Bool) (ps : List ℚ) :
    (exec_steps d dir ps).mids.map (fun st => st.current_coord) =
      (List.range ps.length).map (fun k : ℕ =>
        d.current_coord + (if dir then ((k : ℚ) + 1) * d.step_size
           else -(((k : ℚ) + 1) * d.step_size))) := by
  induction ps generalizing d with
  | nil => rfl
  | cons p ps ih =>
    cases dir
    all_goals
      simp only [exec_steps, List.map_cons, List.length_cons,
        List.range_succ_eq_map, List.map_map, ih, Bool.false_eq_true,
        if_true, if_false]
    all_goals
      refine List.cons_eq_cons.mpr ⟨by push_cast; ring, ?_⟩
    all_goals
      apply List.map_congr_left
      intro k _
      simp only [Function.comp_apply]
      push_cast
      ring

/-- Every state observed during the pulse loop agrees with the entry state
on all attributes except `current_coord`. -/
theorem exec_steps_mids_fields (d : AxisDriver) (dir : Bool) (ps : List ℚ) :
    ∀ st ∈ (exec_steps d dir ps).mids,
      st.busy = d.busy ∧ st.homing_done = d.homing_done ∧
      st.min_coord = d.min_coord ∧ st.max_coord = d.max_coord ∧
      st.step_size = d.step_size := by
  induction ps generalizing d with
  | nil => intro st h; cases h
  | cons p ps ih =>
    intro st h
    cases dir with
    | false =>
      simp only [exec_steps, List.mem_cons, Bool.false_eq_true, if_false] at h
      rcases h with h | h
      · subst h; exact ⟨rfl, rfl, rfl, rfl, rfl⟩
      · exact ih { d with current_coord := d.current_coord - d.step_size } st h
    | true =>
      simp only [exec_steps, List.mem_cons, if_true] at h
      rcases h with h | h
      · subst h; exact ⟨rfl, rfl, rfl, rfl, rfl⟩
      · exact ih { d with current_coord := d.current_coord + d.step_size } st h

/-- Every pulse issued by the homing loop is a single step in the negative
direction with pause `max_step`. -/
theorem homing_loop_trace (d : AxisDriver) (sensor : ℕ → Bool) (ms : ℚ) :
    ∀ fuel e, ∀ pr ∈ (homing_loop d sensor ms fuel e).2.1,
      pr = (false, d.max_step) := by
  intro fuel
  induction fuel with
  | zero => intro e pr h; cases h
  | succ fuel ih =>
    intro e pr h
    simp only [homing_loop] at h
    split_ifs at h with g1 g2
    · simpa using h
    · simpa using h
    · rcases List.mem_cons.mp h with h | h
      · exact h
      · exact ih (e + 1) pr h

/-- The homing loop never assigns a driver attribute: every driver state
observed at a pulse is the entry state itself. -/
theorem homing_loop_mids (d : AxisDriver) (sensor : ℕ → Bool) (ms : ℚ) :
    ∀ fuel e, ∀ st ∈ (homing_loop d sensor ms fuel e).2.2, st = d := by
  intro fuel
  induction fuel with
  | zero => intro e st h; cases h
  | succ fuel ih =>
    intro e st h
    simp only [homing_loop] at h
    split_ifs at h with g1 g2
    · simpa using h
    · simpa using h
    · rcases List.mem_cons.mp h with h | h
      · exact h
      · exact ih (e + 1) st h

/-- If the sensor never triggers and the (rational) budget is never equal to
a pulse count, the homing loop runs forever: it consumes all fuel, issuing
one pulse per iteration, without ever raising the budget fault. -/
theorem homing_loop_diverges (d : AxisDriver) (sensor : ℕ → Bool) (ms : ℚ)
    (hsen : ∀ k, sensor k = false)
    (hms : ∀ k : ℕ, ((k + 1 : ℕ) : ℚ) ≠ ms) :
    ∀ fuel e, (homing_loop d sensor ms fuel e).1 = .diverge ∧
      (homing_loop d sensor ms fuel e).2.1.length = fuel := by
  intro fuel
  induction fuel with
  | zero => intro e; exact ⟨rfl, rfl⟩
  | succ fuel ih =>
    intro e
    simp only [homing_loop, hsen e, if_neg (hms e), Bool.false_eq_true,
      if_false, List.length_cons]
    exact ⟨(ih (e + 1)).1, by rw [(ih (e + 1)).2]⟩

/-- If the homing loop exits with the sensor reached, the issued pulse trace
has some positive length `m`, the `m`-th sensor sample (0-indexed `m - 1`)
returned true, and all earlier samples returned false. -/
theorem homing_loop_ok_spec (d : AxisDriver) (sensor : ℕ → Bool) (ms : ℚ) :
    ∀ fuel e, (homing_loop d sensor ms fuel e).1 = .ok →
      ∃ m, 0 < m ∧ (homing_loop d sensor ms fuel e).2.1.length = m ∧
        sensor (e + m - 1) = true ∧
        ∀ j, j < m - 1 → sensor (e + j) = false := by
  intro fuel
  induction fuel with
  | zero => intro e h; cases h
  | succ fuel ih =>
    intro e h
    by_cases g1 : ((e + 1 : ℕ) : ℚ) = ms
    · simp only [homing_loop, if_pos g1] at h
      cases h
    · by_cases g2 : sensor e = true
      · refine ⟨1, Nat.one_pos, ?_, by simpa using g2,
          fun j hj => absurd hj (by omega)⟩
        simp only [homing_loop, if_neg g1, g2, if_true]
        rfl
      · have g2' : sensor e = false := by simpa using g2
        simp only [homing_loop, if_neg g1, g2', Bool.false_eq_true,
          if_false] at h ⊢
        obtain ⟨m, hm, hlen, hs, hpre⟩ := ih (e + 1) h
        refine ⟨m + 1, Nat.succ_pos m, by simpa using hlen, ?_, ?_⟩
        · have he : e + (m + 1) - 1 = e + 1 + m - 1 := by omega
          rw [he]; exact hs
        · intro j hj
          rcases Nat.eq_zero_or_pos j with hj0 | hj0
          · subst hj0; simpa using g2'
          · have he : e + j = e + 1 + (j - 1) := by omega
            rw [he]
            exact hpre (j - 1) (by omega)

/-- A `homing` call either completes the homing assignment (setting
`current_coord := min_coord` and `homing_done := true`) or leaves the driver
state exactly as it was; no other state is reachable. -/
theorem homing_state_cases (d : AxisDriver) (sensor : ℕ → Bool) (fuel : ℕ) :
    (homing d sensor fuel).state =
        { d with current_coord := d.min_coord, homing_done := true } ∨
    (homing d sensor fuel).state = d := by
  simp only [homing]
  split_ifs
  · exact Or.inl rfl
  · cases (homing_loop d sensor ((d.max_coord - d.min_coord) / d.step_size)
      fuel 0).1
    · exact Or.inl rfl
    · exact Or.inr rfl
    · exact Or.inr rfl

/-! ### Shared concrete instances for witnesses and counterexamples -/

/-- A concrete linear-axis driver as produced by
`initAxis 1 2 3 (1/2) 1 3 1 0 10 "LIN"`. -/
def linBase : AxisDriver :=
  { dir_pin := 1, step_pin := 2, sensor_pin := some 3,
    step_size := 1/2, min_step := 1, max_step := 3, delta_step := 1,
    step_intervals := 3, min_coord := 0, max_coord := 10,
    axis_type := "LIN", current_coord := -1, homing_done := false,
    busy := false }

/-- The concrete linear driver, already homed to coordinate 0. -/
def homedLin : AxisDriver :=
  { linBase with homing_done := true, current_coord := 0 }

/-- The concrete linear driver with the busy flag set. -/
def busyLin : AxisDriver :=
  { linBase with busy := true }

/-- A concrete rotational-axis driver. -/
def rotBase : AxisDriver :=
  { dir_pin := 1, step_pin := 2, sensor_pin := none,
    step_size := 1/2, min_step := 1, max_step := 3, delta_step := 1,
    step_intervals := 3, min_coord := 4, max_coord := 10,
    axis_type := "ROT", current_coord := -1, homing_done := false,
    busy := false }

/-- A linear driver whose travel range is not an integer multiple of the
step size: `(max_coord - min_coord) / step_size = 5/2`. -/
def fracLin : AxisDriver :=
  { dir_pin := 1, step_pin := 2, sensor_pin := some 3,
    step_size := 2/5, min_step := 1, max_step := 1, delta_step := 1,
    step_intervals := 1, min_coord := 0, max_coord := 1,
    axis_type := "LIN", current_coord := -1, homing_done := false,
    busy := false }

/-- An endstop sensor that never reports triggered. -/
def sensorNever : ℕ → Bool := fun _ => false

/-- An endstop sensor that reports triggered at every sample. -/
def sensorAlways : ℕ → Bool := fun _ => true

/-- No pulse count ever equals the fractional budget `5/2`. -/
theorem natCast_ne_five_halves (k : ℕ) : ((k + 1 : ℕ) : ℚ) ≠ 5 / 2 := by
  intro h
  have h2 : ((2 * (k + 1) : ℕ) : ℚ) = 5 := by push_cast at h ⊢; linarith
  have h3 : 2 * (k + 1) = 5 := by exact_mod_cast h2
  omega

/-! ### Reduction helpers for the driver operations -/

/-- One unfolding step of the homing loop. -/
theorem homing_loop_succ (d : AxisDriver) (sensor : ℕ → Bool) (ms : ℚ)
    (fuel e : ℕ) :
    homing_loop d sensor ms (fuel + 1) e =
      if ((e + 1 : ℕ) : ℚ) = ms then
        (.fault, [(false, d.max_step)], [d])
      else if sensor e then
        (.ok, [(false, d.max_step)], [d])
      else
        ((homing_loop d sensor ms fuel (e + 1)).1,
          (false, d.max_step) :: (homing_loop d sensor ms fuel (e + 1)).2.1,
          d :: (homing_loop d sensor ms fuel (e + 1)).2.2) := rfl

/-- On the success path (not busy, homed, target within bounds),
`move_to_coordinate` runs the pulse loop on the computed plan and clears the
busy flag. -/
theorem move_to_coordinate_success (d : AxisDriver) (t : ℚ)
    (hb : d.busy = false) (hh : d.homing_done = true)
    (hmax : ¬ d.max_coord < t) (hmin : ¬ t < d.min_coord) :
    move_to_coordinate d t =
      ⟨{ (exec_steps { d with busy := true }
            (calculate_direction (d.current_coord - t))
            (create_steps_list { d with busy := true }
              (calculate_steps { d with busy := true }
                (d.current_coord - t)))).final with busy := false },
        none,
        (exec_steps { d with busy := true }
          (calculate_direction (d.current_coord - t))
          (create_steps_list { d with busy := true }
            (calculate_steps { d with busy := true }
              (d.current_coord - t)))).trace,
        (exec_steps { d with busy := true }
          (calculate_direction (d.current_coord - t))
          (create_steps_list { d with busy := true }
            (calculate_steps { d with busy := true }
              (d.current_coord - t)))).mids⟩ := by
  simp [move_to_coordinate, hb, hh, hmax, hmin, calculate_delta_distance]

/-- Method `_calculate_steps` floor-quantises the travel distance. -/
theorem calculate_steps_floor (d : AxisDriver) (x : ℚ)
    (hs : 0 < d.step_size) :
    calculate_steps d x = ⌊|x| / d.step_size⌋ :=
  pyInt_eq_floor _ (by positivity)

/-- Full description of a successful `move_to_coordinate` call: no error,
`n = floor(|delta| / step_size)` actuator pulses all in the resolved
direction, final coordinate advanced by `n` steps toward the target, and
the `k`-th per-pulse coordinate advanced by `k+1` steps.  -/
theorem move_success_coords (d : AxisDriver) (t : ℚ)
    (hb : d.busy = false) (hh : d.homing_done = true)
    (hmax : ¬ d.max_coord < t) (hmin : ¬ t < d.min_coord)
    (hs : 0 < d.step_size) (hI : 0 ≤ d.step_intervals) :
    (move_to_coordinate d t).err = none ∧
    (move_to_coordinate d t).trace.length
      = (⌊|d.current_coord - t| / d.step_size⌋).toNat ∧
    (move_to_coordinate d t).trace.map Prod.fst
      = List.replicate (⌊|d.current_coord - t| / d.step_size⌋).toNat
          (calculate_direction (d.current_coord - t)) ∧
    (move_to_coordinate d t).state.current_coord
      = d.current_coord +
        (if d.current_coord - t < 0 then
          ((⌊|d.current_coord - t| / d.step_size⌋).toNat : ℚ) * d.step_size
         else
          -(((⌊|d.current_coord - t| / d.step_size⌋).toNat : ℚ)
            * d.step_size)) ∧
    (move_to_coordinate d t).mids.map (fun st => st.current_coord)
      = (List.range (⌊|d.current_coord - t| / d.step_size⌋).toNat).map
          (fun k : ℕ => d.current_coord +
            (if d.current_coord - t < 0 then ((k : ℚ) + 1) * d.step_size
             else -(((k : ℚ) + 1) * d.step_size))) := by
  have hres := move_to_coordinate_success d t hb hh hmax hmin
  set d1 : AxisDriver := { d with busy := true } with hd1
  have hsteps : calculate_steps d1 (d.current_coord - t)
      = ⌊|d.current_coord - t| / d.step_size⌋ :=
    calculate_steps_floor d1 _ hs
  have hlen : (create_steps_list d1 (calculate_steps d1
      (d.current_coord - t))).length
      = (⌊|d.current_coord - t| / d.step_size⌋).toNat := by
    rw [create_steps_list_length d1 hI, hsteps]
  have hdir : ∀ A B : ℚ,
      (if calculate_direction (d.current_coord - t) = true then A else B)
        = (if d.current_coord - t < 0 then A else B) := by
    intro A B
    by_cases hlt : d.current_coord - t < 0
    · rw [if_pos hlt, if_pos]
      simp [calculate_direction, hlt]
    · rw [if_neg hlt, if_neg]
      simp [calculate_direction, hlt]
  refine ⟨?_, ?_, ?_, ?_, ?_⟩
  · rw [hres]
  · rw [hres]
    simp only [exec_steps_trace, List.length_map]
    exact hlen
  · rw [hres]
    simp only [exec_steps_trace, List.map_map]
    have : (Prod.fst ∘ fun p : ℚ =>
        ((calculate_direction (d.current_coord - t)), p))
        = fun _ : ℚ => calculate_direction (d.current_coord - t) := rfl
    rw [this, List.map_const', hlen]
  · rw [hres]
    show (exec_steps d1 _ _).final.current_coord = _
    rw [exec_steps_final]
    show d1.current_coord + _ = _
    rw [hlen]
    exact congrArg (fun x => d.current_coord + x) (hdir _ _)
  · rw [hres]
    show (exec_steps d1 _ _).mids.map _ = _
    rw [exec_steps_mids_coords, hlen]
    apply List.map_congr_left
    intro k _
    show d1.current_coord + _ = _
    exact congrArg (fun x => d.current_coord + x) (hdir _ _)

/-- Every failure path of `move_to_coordinate` leaves the coordinate
untouched and issues no pulse; starting from a non-busy driver, the only
paths are the three failures and the success path. -/
theorem move_mids_busy (d : AxisDriver) (t : ℚ) (hb : d.busy = false) :
    ∀ st ∈ (move_to_coordinate d t).mids, st.busy = true := by
  intro st h
  by_cases hh : d.homing_done = true
  · by_cases hmax : d.max_coord < t
    · simp [move_to_coordinate, hb, hh, hmax] at h
    · by_cases hmin : t < d.min_coord
      · simp [move_to_coordinate, hb, hh, hmax, hmin] at h
      · rw [move_to_coordinate_success d t hb hh hmax hmin] at h
        have hfields := exec_steps_mids_fields _ _ _ st h
        exact hfields.1
  · have hh' : d.homing_done = false := by simpa using hh
    simp [move_to_coordinate, hb, hh'] at h

/-- Starting from a non-busy driver, `move_to_coordinate` always returns a
state with `busy = false`, on every path. -/
theorem move_state_busy (d : AxisDriver) (t : ℚ) (hb : d.busy = false) :
    (move_to_coordinate d t).state.busy = false := by
  simp only [move_to_coordinate, hb, Bool.false_eq_true, if_false]
  split_ifs <;> rfl

/-- Homing never modifies the busy flag. -/
theorem homing_state_busy (d : AxisDriver) (sensor : ℕ → Bool) (fuel : ℕ) :
    (homing d sensor fuel).state.busy = d.busy := by
  rcases homing_state_cases d sensor fuel with h | h <;> rw [h]

/-- Every driver state observed during a `homing` call is the entry state
itself (in particular, no attribute — busy included — is modified during
the loop). -/
theorem homing_mids_eq (d : AxisDriver) (sensor : ℕ → Bool) (fuel : ℕ) :
    ∀ st ∈ (homing d sensor fuel).mids, st = d := by
  intro st h
  by_cases hty : d.axis_type = "ROT"
  · simp [homing, hty] at h
  · simp only [homing, if_neg hty] at h
    rcases hE : (homing_loop d sensor
        ((d.max_coord - d.min_coord) / d.step_size) fuel 0).1 with _ | _ | _ <;>
      simp only [hE] at h <;>
      exact homing_loop_mids d sensor _ fuel 0 st h

/-- A `homing` call whose outcome is success ends in the homed state:
coordinate at `min_coord` and `homing_done` set. -/
theorem homing_ok_state (d : AxisDriver) (sensor : ℕ → Bool) (fuel : ℕ)
    (hok : (homing d sensor fuel).outcome = .ok) :
    (homing d sensor fuel).state =
      { d with current_coord := d.min_coord, homing_done := true } := by
  by_cases hty : d.axis_type = "ROT"
  · simp [homing, hty]
  · rcases hE : (homing_loop d sensor
        ((d.max_coord - d.min_coord) / d.step_size) fuel 0).1 with _ | _ | _
    · simp [homing, hty, hE]
    · simp [homing, hty, hE] at hok
    · simp [homing, hty, hE] at hok

/-! ### Claim theorems -/

/-- C8: construction fails with a configuration error exactly when the
direction pin equals the step pin, or (for a linear axis) when the sensor
pin equals either of the other two pins; any pin triple with all three
values distinct constructs successfully. -/
theorem C8_construction_pin_validation
    (dp sp sep dp2 sp2 sep2 : ℤ) (ss mins maxs ds minc maxc : ℚ)
    (ss2 mins2 maxs2 ds2 minc2 maxc2 : ℚ) (aty aty2 : String)
    (h1 : sp2 ≠ dp2) (h2 : dp2 ≠ sep2) (h3 : sp2 ≠ sep2) :
    ((∃ e, initAxis dp sp sep ss mins maxs ds minc maxc aty = .error e) ↔
      (sp = dp ∨ (aty = "LIN" ∧ (dp = sep ∨ sp = sep)))) ∧
    (∃ d0, initAxis dp2 sp2 sep2 ss2 mins2 maxs2 ds2 minc2 maxc2 aty2
      = .ok d0) := by
  constructor
  · unfold initAxis
    split_ifs with g1 g2 g3 g4 <;> simp_all
  · simp only [initAxis, if_neg h1]
    by_cases g1 : aty2 = "LIN"
    · rw [if_pos g1, if_neg h2, if_neg h3]
      exact ⟨_, rfl⟩
    · rw [if_neg g1]
      exact ⟨_, rfl⟩

/-- Witness for C8 at concrete pins: triple (dir 1, step 2, sensor 3). -/
theorem C8_construction_pin_validation_witness :
    ((∃ e, initAxis 1 1 3 (1/2) 1 3 1 0 10 "LIN" = .error e) ↔
      ((1 : ℤ) = 1 ∨ ("LIN" = "LIN" ∧ ((1 : ℤ) = 3 ∨ (1 : ℤ) = 3)))) ∧
    (∃ d0, initAxis 1 2 3 (1/2) 1 3 1 0 10 "LIN" = .ok d0) :=
  C8_construction_pin_validation 1 1 3 1 2 3 (1/2) 1 3 1 0 10 (1/2) 1 3 1 0 10
    "LIN" "LIN" (by decide) (by decide) (by decide)

/-- C9: a successfully constructed driver reports `current_coord = -1.0`
(the fixed sentinel) and `homing_done = false`, whatever the configured
coordinate range; when `-1.0` lies inside `[min_coord, max_coord]` the
sentinel is indistinguishable from a legitimate coordinate. -/
theorem C9_sentinel_before_homing
    (dp sp sep : ℤ) (ss mins maxs ds minc maxc : ℚ) (aty : String)
    (d0 : AxisDriver)
    (hc : initAxis dp sp sep ss mins maxs ds minc maxc aty = .ok d0) :
    d0.current_coord = -1 ∧ d0.homing_done = false ∧
    d0.min_coord = minc ∧ d0.max_coord = maxc ∧
    (minc ≤ -1 → -1 ≤ maxc →
      d0.min_coord ≤ d0.current_coord ∧ d0.current_coord ≤ d0.max_coord) := by
  simp only [initAxis] at hc
  split_ifs at hc <;> injection hc with hh <;> rw [← hh] <;>
    exact ⟨rfl, rfl, rfl, rfl, fun hA hB => ⟨hA, hB⟩⟩

/-- Evaluation of a concrete successful construction. -/
theorem initAxis_linBase :
    initAxis 1 2 3 (1/2) 1 3 1 0 10 "LIN" = .ok linBase := by
  simp only [initAxis, linBase]
  norm_num [pyInt, Int.tdiv]

/-- Evaluation of a concrete successful construction with a negative
minimum coordinate. -/
theorem initAxis_linBase_neg :
    initAxis 1 2 3 (1/2) 1 3 1 (-5) 10 "LIN"
      = .ok { linBase with min_coord := -5 } := by
  simp only [initAxis, linBase]
  norm_num [pyInt, Int.tdiv]

/-- Witness for C9: a concrete construction with `-1` inside the range. -/
theorem C9_sentinel_before_homing_witness :
    ∃ d0, initAxis 1 2 3 (1/2) 1 3 1 (-5) 10 "LIN" = .ok d0 ∧
      d0.current_coord = -1 ∧ d0.homing_done = false ∧
      d0.min_coord = -5 ∧ d0.max_coord = 10 ∧
      ((-5 : ℚ) ≤ -1 → (-1 : ℚ) ≤ 10 →
        d0.min_coord ≤ d0.current_coord ∧ d0.current_coord ≤ d0.max_coord) :=
  ⟨{ linBase with min_coord := -5 },
    initAxis_linBase_neg,
    C9_sentinel_before_homing 1 2 3 (1/2) 1 3 1 (-5) 10 "LIN"
      { linBase with min_coord := -5 } initAxis_linBase_neg⟩

/-- C5: `move_to_coordinate` checks busy, then homing, then bounds, in that
order; each failure raises the corresponding error with no actuator call
and an unchanged coordinate. -/
theorem C5_move_precondition_order
    (dB dH dO : AxisDriver) (tB tH tO : ℚ)
    (hB : dB.busy = true)
    (hHb : dH.busy = false) (hHd : dH.homing_done = false)
    (hOb : dO.busy = false) (hOd : dO.homing_done = true)
    (hOt : dO.max_coord < tO ∨ tO < dO.min_coord) :
    ((move_to_coordinate dB tB).err = some .busyAxis ∧
      (move_to_coordinate dB tB).trace = [] ∧
      (move_to_coordinate dB tB).state = dB) ∧
    ((move_to_coordinate dH tH).err = some .notHomed ∧
      (move_to_coordinate dH tH).trace = [] ∧
      (move_to_coordinate dH tH).state.current_coord = dH.current_coord) ∧
    (((move_to_coordinate dO tO).err = some .aboveMax ∨
        (move_to_coordinate dO tO).err = some .belowMin) ∧
      (move_to_coordinate dO tO).trace = [] ∧
      (move_to_coordinate dO tO).state.current_coord = dO.current_coord) := by
  refine ⟨?_, ?_, ?_⟩
  · simp [move_to_coordinate, hB]
  · simp [move_to_coordinate, hHb, hHd]
  · rcases hOt with hOt | hOt
    · simp [move_to_coordinate, hOb, hOd, hOt]
    · rcases le_or_lt tO dO.max_coord with hle | hgt
      · simp [move_to_coordinate, hOb, hOd, hOt, not_lt.mpr hle]
      · simp [move_to_coordinate, hOb, hOd, hgt]

/-- Witness for C5 at concrete drivers: busy driver, unhomed driver, and a
homed driver with an out-of-range target. -/
theorem C5_move_precondition_order_witness :
    ((move_to_coordinate busyLin 1).err = some .busyAxis ∧
      (move_to_coordinate busyLin 1).trace = [] ∧
      (move_to_coordinate busyLin 1).state = busyLin) ∧
    ((move_to_coordinate linBase 1).err = some .notHomed ∧
      (move_to_coordinate linBase 1).trace = [] ∧
      (move_to_coordinate linBase 1).state.current_coord
        = linBase.current_coord) ∧
    (((move_to_coordinate homedLin 11).err = some .aboveMax ∨
        (move_to_coordinate homedLin 11).err = some .belowMin) ∧
      (move_to_coordinate homedLin 11).trace = [] ∧
      (move_to_coordinate homedLin 11).state.current_coord
        = homedLin.current_coord) :=
  C5_move_precondition_order busyLin linBase homedLin 1 1 11
    rfl rfl rfl rfl rfl (Or.inl (by decide))

/-- C7: `busy` is false on a freshly constructed driver, is false again
after any `move_to_coordinate` call that starts with `busy = false`
(whichever path the call takes), and is never modified by `homing`. -/
theorem C7_busy_never_stuck
    (dp sp sep : ℤ) (ss mins maxs ds minc maxc : ℚ) (aty : String)
    (d0 d d' : AxisDriver) (t : ℚ) (sensor : ℕ → Bool) (fuel : ℕ)
    (hc : initAxis dp sp sep ss mins maxs ds minc maxc aty = .ok d0)
    (hb : d.busy = false) :
    d0.busy = false ∧
    (move_to_coordinate d t).state.busy = false ∧
    (homing d' sensor fuel).state.busy = d'.busy := by
  refine ⟨?_, ?_, ?_⟩
  · simp only [initAxis] at hc
    split_ifs at hc <;> injection hc with hh <;> rw [← hh]
  · simp only [move_to_coordinate, hb, Bool.false_eq_true, if_false]
    split_ifs <;> rfl
  · rcases homing_state_cases d' sensor fuel with h | h <;> rw [h]

/-- Witness for C7 at concrete inputs. -/
theorem C7_busy_never_stuck_witness :
    linBase.busy = false ∧
    (move_to_coordinate homedLin 1).state.busy = false ∧
    (homing linBase sensorNever 1).state.busy = linBase.busy :=
  C7_busy_never_stuck 1 2 3 (1/2) 1 3 1 0 10 "LIN" linBase homedLin linBase
    1 sensorNever 1 initAxis_linBase rfl

/-- C2 (code behaviour at the failing input): for the linear driver
`fracLin`, whose travel range over step size is the non-integral `5/2`
(floor budget 2), a homing run whose sensor never triggers does not stop
after 2 pulses: for every fuel bound the loop is still running, having
issued one pulse per iteration (arbitrarily many more than the budget),
the hardware-fault exception is never raised, and `homing_done` stays
false while the loop spins. -/
theorem C2_homing_budget_never_enforced :
    pyInt ((fracLin.max_coord - fracLin.min_coord) / fracLin.step_size)
      = 2 ∧
    ∀ fuel, (homing fracLin sensorNever fuel).outcome = .diverge ∧
      (homing fracLin sensorNever fuel).trace.length = fuel ∧
      (homing fracLin sensorNever fuel).state.homing_done = false := by
  have hbud : (fracLin.max_coord - fracLin.min_coord) / fracLin.step_size
      = 5 / 2 := by
    norm_num [fracLin]
  constructor
  · rw [hbud]
    norm_num [pyInt, Int.tdiv]
  · intro fuel
    have hms : ∀ k : ℕ, ((k + 1 : ℕ) : ℚ)
        ≠ (fracLin.max_coord - fracLin.min_coord) / fracLin.step_size := by
      intro k
      rw [hbud]
      exact natCast_ne_five_halves k
    have hdiv := homing_loop_diverges fracLin sensorNever
      ((fracLin.max_coord - fracLin.min_coord) / fracLin.step_size)
      (fun _ => rfl) hms fuel 0
    have hty : ¬ fracLin.axis_type = "ROT" := by decide
    have hres : homing fracLin sensorNever fuel =
        ⟨fracLin, .diverge,
          (homing_loop fracLin sensorNever
            ((fracLin.max_coord - fracLin.min_coord) / fracLin.step_size)
            fuel 0).2.1,
          (homing_loop fracLin sensorNever
            ((fracLin.max_coord - fracLin.min_coord) / fracLin.step_size)
            fuel 0).2.2⟩ := by
      simp only [homing, if_neg hty, hdiv.1]
    rw [hres]
    exact ⟨rfl, hdiv.2, rfl⟩

/-- C1: the trapezoidal step-plan generator is a pure function of the pulse
count `n` and the configuration; with `I = step_intervals =
floor((max_step - min_step) / delta_step) + 1` it returns: the empty plan
for `n = 0`; `n` copies of `max_step` for `0 < n < 2I`; the `I`-pause
acceleration leg (`max_step - i * delta_step`) then the `I`-pause
deceleration leg (`min_step + i * delta_step`) for `n = 2I`; and the
acceleration leg, `n - 2I` copies of `min_step`, then the deceleration leg
for `n > 2I`. -/
theorem C1_step_plan_generator (d : AxisDriver) (n I : ℕ)
    (hIfl : (I : ℤ) = ⌊(d.max_step - d.min_step) / d.delta_step⌋ + 1)
    (hIs : d.step_intervals = (I : ℤ)) :
    (n = 0 → create_steps_list d (n : ℤ) = []) ∧
    (0 < n ∧ n < 2 * I →
      create_steps_list d (n : ℤ) = List.replicate n d.max_step) ∧
    (n = 2 * I →
      create_steps_list d (n : ℤ)
        = accelLegSpec I d.max_step d.delta_step
          ++ decelLegSpec I d.min_step d.delta_step) ∧
    (2 * I < n →
      create_steps_list d (n : ℤ)
        = accelLegSpec I d.max_step d.delta_step
          ++ List.replicate (n - 2 * I) d.min_step
          ++ decelLegSpec I d.min_step d.delta_step) := by
  have hIN : d.step_intervals.toNat = I := by omega
  refine ⟨?_, ?_, ?_, ?_⟩
  · intro hn
    subst hn
    unfold create_steps_list
    rcases Nat.eq_zero_or_pos I with h0 | h0
    · rw [if_neg (show ¬(((0:ℕ):ℤ) < 2 * d.step_intervals ∧ 0 < ((0:ℕ):ℤ))
          by omega),
        if_pos (show ((0:ℕ):ℤ) = 2 * d.step_intervals by omega), hIN, h0]
      simp
    · rw [if_neg (show ¬(((0:ℕ):ℤ) < 2 * d.step_intervals ∧ 0 < ((0:ℕ):ℤ))
          by omega),
        if_neg (show ¬((0:ℕ):ℤ) = 2 * d.step_intervals by omega),
        if_neg (show ¬(2 * d.step_intervals < ((0:ℕ):ℤ)) by omega)]
  · rintro ⟨hn0, hn2⟩
    unfold create_steps_list
    rw [if_pos (show ((n:ℕ):ℤ) < 2 * d.step_intervals ∧ 0 < ((n:ℕ):ℤ)
      by omega)]
    congr 1
  · intro hn
    unfold create_steps_list
    rw [if_neg (show ¬(((n:ℕ):ℤ) < 2 * d.step_intervals ∧ 0 < ((n:ℕ):ℤ))
        by omega),
      if_pos (show ((n:ℕ):ℤ) = 2 * d.step_intervals by omega), hIN]
    rfl
  · intro hn
    unfold create_steps_list
    rw [if_neg (show ¬(((n:ℕ):ℤ) < 2 * d.step_intervals ∧ 0 < ((n:ℕ):ℤ))
        by omega),
      if_neg (show ¬((n:ℕ):ℤ) = 2 * d.step_intervals by omega),
      if_pos (show 2 * d.step_intervals < ((n:ℕ):ℤ) by omega), hIN]
    have hc : (((n:ℕ):ℤ) - 2 * d.step_intervals).toNat = n - 2 * I := by
      omega
    rw [hc]
    rfl

/-- Witness for C1 at the concrete configuration `linBase`
(`I = 3`) and `n = 10`. -/
theorem C1_step_plan_generator_witness :
    ((3 : ℕ) : ℤ) = ⌊(linBase.max_step - linBase.min_step)
      / linBase.delta_step⌋ + 1 ∧
    linBase.step_intervals = ((3 : ℕ) : ℤ) ∧
    (2 * 3 < 10 →
      create_steps_list linBase ((10 : ℕ) : ℤ)
        = accelLegSpec 3 linBase.max_step linBase.delta_step
          ++ List.replicate (10 - 2 * 3) linBase.min_step
          ++ decelLegSpec 3 linBase.min_step linBase.delta_step) := by
  have hq : (linBase.max_step - linBase.min_step) / linBase.delta_step
      = (2 : ℚ) := by norm_num [linBase]
  have hIfl : ((3 : ℕ) : ℤ) = ⌊(linBase.max_step - linBase.min_step)
      / linBase.delta_step⌋ + 1 := by
    rw [hq]
    norm_num
  exact ⟨hIfl, rfl,
    (C1_step_plan_generator linBase 10 3 hIfl rfl).2.2.2⟩

/-- Evaluation of a concrete homing run on `linBase` whose sensor triggers
at the very first sample: one pulse is issued and homing succeeds. -/
theorem homing_linBase_always :
    homing linBase sensorAlways 5 =
      ⟨{ linBase with
          current_coord := linBase.min_coord
          homing_done := true },
        .ok, [(false, linBase.max_step)], [linBase]⟩ := by
  have h1 : ¬ ((0 + 1 : ℕ) : ℚ)
      = (linBase.max_coord - linBase.min_coord) / linBase.step_size := by
    norm_num [linBase]
  have hloop : homing_loop linBase sensorAlways
      ((linBase.max_coord - linBase.min_coord) / linBase.step_size) 5 0
      = (.ok, [(false, linBase.max_step)], [linBase]) := by
    rw [show (5:ℕ) = 4 + 1 from rfl, homing_loop_succ, if_neg h1,
      if_pos (show sensorAlways 0 = true from rfl)]
  have hty : ¬ linBase.axis_type = "ROT" := by decide
  simp [homing, hty, hloop]

/-- C3 counterexample: homing on a non-busy concrete linear driver issues a
pulse (the operation is genuinely in flight) while the driver state
observed at that pulse still has `busy = false`, and returns with
`busy = false`; so `busy` is not true for the duration of an in-flight
`homing()` call. -/
theorem C3_counterexample_homing_busy :
    linBase.busy = false ∧
    (homing linBase sensorAlways 5).outcome = .ok ∧
    (homing linBase sensorAlways 5).trace.length = 1 ∧
    ((homing linBase sensorAlways 5).mids.all fun st => ! st.busy) = true ∧
    (homing linBase sensorAlways 5).state.busy = false := by
  rw [homing_linBase_always]
  exact ⟨rfl, rfl, rfl, rfl, rfl⟩

/-- C3 (amended): the busy flag is true at every per-pulse state during a
`move_to_coordinate` call that starts non-busy, and false after the call;
a `move_to_coordinate` call issued while the flag is already set is
rejected with the busy error, issuing no pulse and leaving the state
untouched; and `homing` never modifies the busy flag — it is unchanged at
every observed pulse and on return, so the exclusivity gate covers only
move operations. -/
theorem C3_amended_busy_gate (d d' dB : AxisDriver) (t tB : ℚ)
    (sensor : ℕ → Bool) (fuel : ℕ)
    (hb : d.busy = false) (hB : dB.busy = true) :
    ((move_to_coordinate d t).mids.all fun st => st.busy) = true ∧
    (move_to_coordinate d t).state.busy = false ∧
    (move_to_coordinate dB tB).err = some .busyAxis ∧
    (move_to_coordinate dB tB).trace = [] ∧
    (move_to_coordinate dB tB).state = dB ∧
    ((homing d' sensor fuel).mids.all
      fun st => st.busy == d'.busy) = true ∧
    (homing d' sensor fuel).state.busy = d'.busy := by
  refine ⟨?_, move_state_busy d t hb, ?_, ?_, ?_,
    ?_, homing_state_busy d' sensor fuel⟩
  · rw [List.all_eq_true]
    intro st hst
    exact move_mids_busy d t hb st hst
  · simp [move_to_coordinate, hB]
  · simp [move_to_coordinate, hB]
  · simp [move_to_coordinate, hB]
  · rw [List.all_eq_true]
    intro st hst
    rw [homing_mids_eq d' sensor fuel st hst]
    simp

/-- Witness for the amended C3 at concrete inputs. -/
theorem C3_amended_busy_gate_witness :
    homedLin.busy = false ∧ busyLin.busy = true ∧
    (((move_to_coordinate homedLin 2).mids.all fun st => st.busy) = true ∧
      (move_to_coordinate homedLin 2).state.busy = false ∧
      (move_to_coordinate busyLin 1).err = some .busyAxis ∧
      (move_to_coordinate busyLin 1).trace = [] ∧
      (move_to_coordinate busyLin 1).state = busyLin ∧
      ((homing rotBase sensorNever 1).mids.all
        fun st => st.busy == rotBase.busy) = true ∧
      (homing rotBase sensorNever 1).state.busy = rotBase.busy) :=
  ⟨rfl, rfl,
    C3_amended_busy_gate homedLin rotBase busyLin 2 1 sensorNever 1
      rfl rfl⟩


/-- Bounds for the floor-quantised pulse count: `n * s ≤ x < (n+1) * s`
where `n = floor(x / s)` for non-negative `x` and positive `s`. -/
theorem floor_step_bounds (x s : ℚ) (hs : 0 < s) (hx : 0 ≤ x) :
    ((⌊x / s⌋.toNat : ℚ)) * s ≤ x ∧ x < ((⌊x / s⌋.toNat : ℚ) + 1) * s := by
  have hq0 : 0 ≤ x / s := by positivity
  have hfl0 : (0:ℤ) ≤ ⌊x / s⌋ := Int.floor_nonneg.mpr hq0
  have hcast : ((⌊x / s⌋.toNat : ℚ)) = ((⌊x / s⌋ : ℤ) : ℚ) := by
    exact_mod_cast Int.toNat_of_nonneg hfl0
  constructor
  · rw [← le_div_iff₀ hs, hcast]
    exact Int.floor_le _
  · rw [← div_lt_iff₀ hs, hcast]
    exact Int.lt_floor_add_one _

/-- C4: a successful `move_to_coordinate` computes
`delta = current_coord - target`, resolves the direction positive exactly
when `delta < 0` (with `delta = 0` resolving to the negative direction and
an empty pulse train), issues exactly `floor(|delta| / step_size)` pulses
all in that direction, moves the coordinate one `step_size` per pulse
monotonically toward the target (the distance after the `k`-th pulse is
`|delta| - (k+1) * step_size`), and ends within `step_size` of the
target. -/
theorem C4_move_computation (d : AxisDriver) (t : ℚ)
    (hb : d.busy = false) (hh : d.homing_done = true)
    (h1 : d.min_coord ≤ t) (h2 : t ≤ d.max_coord)
    (hs : 0 < d.step_size) (hI : 0 ≤ d.step_intervals) :
    (move_to_coordinate d t).err = none ∧
    (move_to_coordinate d t).trace.length
      = (⌊|d.current_coord - t| / d.step_size⌋).toNat ∧
    ((move_to_coordinate d t).trace.map Prod.fst
      = List.replicate (⌊|d.current_coord - t| / d.step_size⌋).toNat
          (calculate_direction (d.current_coord - t))) ∧
    calculate_direction 0 = false ∧
    (d.current_coord - t = 0 → (move_to_coordinate d t).trace = []) ∧
    ((move_to_coordinate d t).mids.map (fun st => |st.current_coord - t|)
      = (List.range (⌊|d.current_coord - t| / d.step_size⌋).toNat).map
          (fun k : ℕ =>
            |d.current_coord - t| - ((k : ℚ) + 1) * d.step_size)) ∧
    |(move_to_coordinate d t).state.current_coord - t| < d.step_size := by
  have hmax : ¬ d.max_coord < t := not_lt.mpr h2
  have hmin : ¬ t < d.min_coord := not_lt.mpr h1
  obtain ⟨he, hlen, htr, hfin, hmids⟩ :=
    move_success_coords d t hb hh hmax hmin hs hI
  obtain ⟨hle', hlt'⟩ :=
    floor_step_bounds |d.current_coord - t| d.step_size hs (abs_nonneg _)
  have hexp : ((((⌊|d.current_coord - t| / d.step_size⌋).toNat : ℚ)) + 1)
      * d.step_size
      = (((⌊|d.current_coord - t| / d.step_size⌋).toNat : ℚ)) * d.step_size
        + d.step_size := by ring
  rw [hexp] at hlt'
  refine ⟨he, hlen, htr, ?_, ?_, ?_, ?_⟩
  · rw [calculate_direction]
    simp
  · intro h0
    apply List.length_eq_zero.mp
    rw [hlen, h0]
    simp
  · have hcomp : (move_to_coordinate d t).mids.map
        (fun st => |st.current_coord - t|)
        = ((move_to_coordinate d t).mids.map
            (fun st => st.current_coord)).map (fun x => |x - t|) := by
      rw [List.map_map]
      rfl
    rw [hcomp, hmids, List.map_map]
    apply List.map_congr_left
    intro k hk
    have hkn : k < (⌊|d.current_coord - t| / d.step_size⌋).toNat :=
      List.mem_range.mp hk
    have hk1 : ((k:ℚ) + 1)
        ≤ (((⌊|d.current_coord - t| / d.step_size⌋).toNat : ℚ)) := by
      exact_mod_cast hkn
    have hks : ((k:ℚ) + 1) * d.step_size
        ≤ (((⌊|d.current_coord - t| / d.step_size⌋).toNat : ℚ))
          * d.step_size :=
      mul_le_mul_of_nonneg_right hk1 (le_of_lt hs)
    simp only [Function.comp_apply]
    by_cases hlt0 : d.current_coord - t < 0
    · rw [if_pos hlt0]
      have habs : |d.current_coord - t| = -(d.current_coord - t) :=
        abs_of_neg hlt0
      rw [abs_of_nonpos (show d.current_coord
          + ((k:ℚ) + 1) * d.step_size - t ≤ 0 by linarith), habs]
      ring
    · rw [if_neg hlt0]
      have habs : |d.current_coord - t| = d.current_coord - t :=
        abs_of_nonneg (not_lt.mp hlt0)
      rw [abs_of_nonneg (show (0:ℚ) ≤ d.current_coord
          + -(((k:ℚ) + 1) * d.step_size) - t by linarith), habs]
      ring
  · rw [hfin]
    by_cases hlt0 : d.current_coord - t < 0
    · rw [if_pos hlt0]
      have habs : |d.current_coord - t| = -(d.current_coord - t) :=
        abs_of_neg hlt0
      rw [abs_of_nonpos (show d.current_coord
          + ((⌊|d.current_coord - t| / d.step_size⌋.toNat : ℚ))
            * d.step_size - t ≤ 0 by linarith)]
      linarith
    · rw [if_neg hlt0]
      have habs : |d.current_coord - t| = d.current_coord - t :=
        abs_of_nonneg (not_lt.mp hlt0)
      rw [abs_of_nonneg (show (0:ℚ) ≤ d.current_coord
          + -(((⌊|d.current_coord - t| / d.step_size⌋.toNat : ℚ))
            * d.step_size) - t by linarith)]
      linarith

/-- Witness for C4: the concrete homed driver moving from 0 to target 2
(step size 1/2, so 4 pulses). -/
theorem C4_move_computation_witness :
    homedLin.busy = false ∧ homedLin.homing_done = true ∧
    homedLin.min_coord ≤ 2 ∧ (2:ℚ) ≤ homedLin.max_coord ∧
    0 < homedLin.step_size ∧ 0 ≤ homedLin.step_intervals ∧
    ((move_to_coordinate homedLin 2).err = none ∧
    (move_to_coordinate homedLin 2).trace.length
      = (⌊|homedLin.current_coord - 2| / homedLin.step_size⌋).toNat ∧
    ((move_to_coordinate homedLin 2).trace.map Prod.fst
      = List.replicate
          (⌊|homedLin.current_coord - 2| / homedLin.step_size⌋).toNat
          (calculate_direction (homedLin.current_coord - 2))) ∧
    calculate_direction 0 = false ∧
    (homedLin.current_coord - 2 = 0 →
      (move_to_coordinate homedLin 2).trace = []) ∧
    ((move_to_coordinate homedLin 2).mids.map
        (fun st => |st.current_coord - 2|)
      = (List.range
          (⌊|homedLin.current_coord - 2| / homedLin.step_size⌋).toNat).map
          (fun k : ℕ =>
            |homedLin.current_coord - 2|
              - ((k : ℚ) + 1) * homedLin.step_size)) ∧
    |(move_to_coordinate homedLin 2).state.current_coord - 2|
      < homedLin.step_size) :=
  ⟨rfl, rfl, by norm_num [homedLin, linBase], by norm_num [homedLin, linBase],
    by norm_num [homedLin, linBase], by norm_num [homedLin, linBase],
    C4_move_computation homedLin 2 rfl rfl
      (by norm_num [homedLin, linBase]) (by norm_num [homedLin, linBase])
      (by norm_num [homedLin, linBase]) (by norm_num [homedLin, linBase])⟩

/-- C6: homing semantics.  A rotational homing run sets
`current_coord = min_coord` and `homing_done` with zero actuator calls; a
successful linear homing run sets the same state, having issued only
single steps in the negative direction with pause `max_step`, and its
pulse count `m` satisfies: sample `m - 1` (after the last pulse) returned
triggered and all earlier samples returned untriggered. -/
theorem C6_homing_semantics (dR dL : AxisDriver)
    (sensorR sensorL : ℕ → Bool) (fuelR fuelL : ℕ)
    (hR : dR.axis_type = "ROT") (hL : dL.axis_type = "LIN")
    (hok : (homing dL sensorL fuelL).outcome = .ok) :
    (homing dR sensorR fuelR).state.current_coord = dR.min_coord ∧
    (homing dR sensorR fuelR).state.homing_done = true ∧
    (homing dR sensorR fuelR).trace = [] ∧
    (homing dL sensorL fuelL).state.current_coord = dL.min_coord ∧
    (homing dL sensorL fuelL).state.homing_done = true ∧
    ((homing dL sensorL fuelL).trace.all
      (fun pr => decide (pr = (false, dL.max_step)))) = true ∧
    0 < (homing dL sensorL fuelL).trace.length ∧
    sensorL ((homing dL sensorL fuelL).trace.length - 1) = true ∧
    (((List.range ((homing dL sensorL fuelL).trace.length - 1)).all
      fun j => ! sensorL j)) = true := by
  have hty : ¬ dL.axis_type = "ROT" := by rw [hL]; decide
  have hloopok : (homing_loop dL sensorL
      ((dL.max_coord - dL.min_coord) / dL.step_size) fuelL 0).1 = .ok := by
    rcases hE : (homing_loop dL sensorL
        ((dL.max_coord - dL.min_coord) / dL.step_size) fuelL 0).1
        with _ | _ | _
    · rfl
    · simp [homing, hty, hE] at hok
    · simp [homing, hty, hE] at hok
  have htr : (homing dL sensorL fuelL).trace =
      (homing_loop dL sensorL
        ((dL.max_coord - dL.min_coord) / dL.step_size) fuelL 0).2.1 := by
    simp [homing, hty, hloopok]
  obtain ⟨m, hm, hlenm, hsen, hpre⟩ :=
    homing_loop_ok_spec dL sensorL _ fuelL 0 hloopok
  have hstate := homing_ok_state dL sensorL fuelL hok
  refine ⟨by simp [homing, hR], by simp [homing, hR], by simp [homing, hR],
    by rw [hstate], by rw [hstate], ?_, ?_, ?_, ?_⟩
  · rw [htr, List.all_eq_true]
    intro pr hpr
    rw [decide_eq_true_eq]
    exact homing_loop_trace dL sensorL _ fuelL 0 pr hpr
  · rw [htr, hlenm]
    exact hm
  · rw [htr, hlenm]
    simpa using hsen
  · rw [htr, hlenm, List.all_eq_true]
    intro j hj
    have := hpre j (List.mem_range.mp hj)
    simpa using this

/-- Witness for C6: a rotational driver and the concrete linear homing run
whose sensor triggers at the first sample. -/
theorem C6_homing_semantics_witness :
    rotBase.axis_type = "ROT" ∧ linBase.axis_type = "LIN" ∧
    ((homing rotBase sensorNever 0).state.current_coord
        = rotBase.min_coord ∧
      (homing rotBase sensorNever 0).state.homing_done = true ∧
      (homing rotBase sensorNever 0).trace = [] ∧
      (homing linBase sensorAlways 5).state.current_coord
        = linBase.min_coord ∧
      (homing linBase sensorAlways 5).state.homing_done = true ∧
      ((homing linBase sensorAlways 5).trace.all
        (fun pr => decide (pr = (false, linBase.max_step)))) = true ∧
      0 < (homing linBase sensorAlways 5).trace.length ∧
      sensorAlways ((homing linBase sensorAlways 5).trace.length - 1)
        = true ∧
      (((List.range
          ((homing linBase sensorAlways 5).trace.length - 1)).all
        fun j => ! sensorAlways j)) = true) :=
  ⟨rfl, rfl,
    C6_homing_semantics rotBase linBase sensorNever sensorAlways 0 5
      rfl rfl (by rw [homing_linBase_always])⟩

/-- C10: a successful homing run ends with the coordinate at `min_coord`,
inside the configured range; and from any in-range state, every
`move_to_coordinate` call — on every path, failed or successful — keeps
both the final coordinate and every intermediate per-pulse coordinate
inside `[min_coord, max_coord]`. -/
theorem C10_coord_range_invariant (dh dm : AxisDriver) (t : ℚ)
    (sensor : ℕ → Bool) (fuel : ℕ)
    (hhr : dh.min_coord ≤ dh.max_coord)
    (hok : (homing dh sensor fuel).outcome = .ok)
    (hmb : dm.busy = false) (hs : 0 < dm.step_size)
    (hI : 0 ≤ dm.step_intervals)
    (hc1 : dm.min_coord ≤ dm.current_coord)
    (hc2 : dm.current_coord ≤ dm.max_coord) :
    (dh.min_coord ≤ (homing dh sensor fuel).state.current_coord ∧
      (homing dh sensor fuel).state.current_coord ≤ dh.max_coord) ∧
    (dm.min_coord ≤ (move_to_coordinate dm t).state.current_coord ∧
      (move_to_coordinate dm t).state.current_coord ≤ dm.max_coord) ∧
    ((move_to_coordinate dm t).mids.all fun st =>
      decide (dm.min_coord ≤ st.current_coord
        ∧ st.current_coord ≤ dm.max_coord)) = true := by
  refine ⟨?_, ?_⟩
  · rw [homing_ok_state dh sensor fuel hok]
    exact ⟨le_refl _, hhr⟩
  · by_cases hh : dm.homing_done = true
    · by_cases hmax : dm.max_coord < t
      · constructor
        · have hst : (move_to_coordinate dm t).state.current_coord
              = dm.current_coord := by
            simp [move_to_coordinate, hmb, hh, hmax]
          rw [hst]
          exact ⟨hc1, hc2⟩
        · have hmd : (move_to_coordinate dm t).mids = [] := by
            simp [move_to_coordinate, hmb, hh, hmax]
          rw [hmd]
          rfl
      · by_cases hmin : t < dm.min_coord
        · constructor
          · have hst : (move_to_coordinate dm t).state.current_coord
                = dm.current_coord := by
              simp [move_to_coordinate, hmb, hh, hmax, hmin]
            rw [hst]
            exact ⟨hc1, hc2⟩
          · have hmd : (move_to_coordinate dm t).mids = [] := by
              simp [move_to_coordinate, hmb, hh, hmax, hmin]
            rw [hmd]
            rfl
        · -- success path
          obtain ⟨he, hlen, htrace, hfin, hmids⟩ :=
            move_success_coords dm t hmb hh hmax hmin hs hI
          obtain ⟨hle', hlt'⟩ := floor_step_bounds |dm.current_coord - t|
            dm.step_size hs (abs_nonneg _)
          have htle : t ≤ dm.max_coord := not_lt.mp hmax
          have htge : dm.min_coord ≤ t := not_lt.mp hmin
          have hN0 : (0:ℚ)
              ≤ ((⌊|dm.current_coord - t| / dm.step_size⌋).toNat : ℚ) := by
            positivity
          constructor
          · rw [hfin]
            by_cases hlt0 : dm.current_coord - t < 0
            · rw [if_pos hlt0]
              have habs : |dm.current_coord - t| = -(dm.current_coord - t) :=
                abs_of_neg hlt0
              constructor
              · have : (0:ℚ) ≤ ((⌊|dm.current_coord - t|
                    / dm.step_size⌋).toNat : ℚ) * dm.step_size := by
                  positivity
                linarith
              · linarith
            · rw [if_neg hlt0]
              have habs : |dm.current_coord - t| = dm.current_coord - t :=
                abs_of_nonneg (not_lt.mp hlt0)
              constructor
              · linarith
              · have : (0:ℚ) ≤ ((⌊|dm.current_coord - t|
                    / dm.step_size⌋).toNat : ℚ) * dm.step_size := by
                  positivity
                linarith
          · rw [List.all_eq_true]
            intro st hst
            rw [decide_eq_true_eq]
            have hmem : st.current_coord
                ∈ (move_to_coordinate dm t).mids.map
                  (fun st => st.current_coord) :=
              List.mem_map_of_mem _ hst
            rw [hmids] at hmem
            obtain ⟨k, hk, hkeq⟩ := List.mem_map.mp hmem
            have hkn : k < (⌊|dm.current_coord - t| / dm.step_size⌋).toNat :=
              List.mem_range.mp hk
            have hk1 : ((k:ℚ) + 1)
                ≤ ((⌊|dm.current_coord - t| / dm.step_size⌋).toNat : ℚ) := by
              exact_mod_cast hkn
            have hks : ((k:ℚ) + 1) * dm.step_size
                ≤ ((⌊|dm.current_coord - t| / dm.step_size⌋).toNat : ℚ)
                  * dm.step_size :=
              mul_le_mul_of_nonneg_right hk1 (le_of_lt hs)
            have hkpos : (0:ℚ) ≤ ((k:ℚ) + 1) * dm.step_size := by
              positivity
            rw [← hkeq]
            by_cases hlt0 : dm.current_coord - t < 0
            · rw [if_pos hlt0]
              have habs : |dm.current_coord - t| = -(dm.current_coord - t) :=
                abs_of_neg hlt0
              exact ⟨by linarith, by linarith⟩
            · rw [if_neg hlt0]
              have habs : |dm.current_coord - t| = dm.current_coord - t :=
                abs_of_nonneg (not_lt.mp hlt0)
              exact ⟨by linarith, by linarith⟩
    · have hh2 : dm.homing_done = false := by simpa using hh
      constructor
      · have hst : (move_to_coordinate dm t).state.current_coord
            = dm.current_coord := by
          simp [move_to_coordinate, hmb, hh2]
        rw [hst]
        exact ⟨hc1, hc2⟩
      · have hmd : (move_to_coordinate dm t).mids = [] := by
          simp [move_to_coordinate, hmb, hh2]
        rw [hmd]
        rfl

/-- Witness for C10: rotational homing into range, then a concrete homed
in-range move. -/
theorem C10_coord_range_invariant_witness :
    rotBase.min_coord ≤ rotBase.max_coord ∧
    (homing rotBase sensorNever 0).outcome = .ok ∧
    ((rotBase.min_coord
        ≤ (homing rotBase sensorNever 0).state.current_coord ∧
      (homing rotBase sensorNever 0).state.current_coord
        ≤ rotBase.max_coord) ∧
    (homedLin.min_coord
        ≤ (move_to_coordinate homedLin 2).state.current_coord ∧
      (move_to_coordinate homedLin 2).state.current_coord
        ≤ homedLin.max_coord) ∧
    ((move_to_coordinate homedLin 2).mids.all fun st =>
      decide (homedLin.min_coord ≤ st.current_coord
        ∧ st.current_coord ≤ homedLin.max_coord)) = true) :=
  ⟨by norm_num [rotBase], rfl,
    C10_coord_range_invariant rotBase homedLin 2 sensorNever 0
      (by norm_num [rotBase]) rfl rfl
      (by norm_num [homedLin, linBase]) (by norm_num [homedLin, linBase])
      (by norm_num [homedLin, linBase]) (by norm_num [homedLin, linBase])⟩


end GPR20
